import Mathlib

/-!
Verification of the real-time presence / messaging / reaction core
(`src/socket.js`) of the MBMConnect backend.

The JavaScript handlers are shallowly embedded as pure Lean functions:
* the reaction aggregator (`updateReaction` event) acts on an `UpdatePost`
  value; the Mongo document's `likes`/`dislikes` counters are modelled as
  `Int` so that the `Math.max(0, x - 1)` clamp is meaningful;
* the connection registry (`onlineUsersMap : Map userId (Set socketId)`)
  is modelled as an association list from user ids to lists of socket ids
  (JS `Map`/`Set` preserve insertion order and hold no duplicates; the
  embedding inserts new keys/elements at the positions the JS code does);
* each event handler is a function from its inputs (plus boolean outcome
  flags for the fallible store operations it awaits) to its new state and
  the list of observable effects (store writes, room emits, broadcasts,
  targeted error emits) in program order.
-/

/-- The two reaction categories accepted by the `updateReaction` handler
(`reactionType === 'like'` vs the `else` branch, i.e. `'dislike'`). -/
inductive ReactionType where
  | like
  | dislike
deriving DecidableEq

/-- The other reaction category. -/
def ReactionType.other : ReactionType → ReactionType
  | .like => .dislike
  | .dislike => .like

/-- One entry of `update.reactions`: `{ user, type }`. -/
structure Reaction where
  user : String
  type : ReactionType
deriving DecidableEq

/-- The fields of an `Event` document the reaction handler touches:
`likes`, `dislikes` and the `reactions` array.  Counters are `Int` so the
`Math.max(0, n - 1)` clamp in the source is modelled faithfully. -/
structure UpdatePost where
  likes : Int
  dislikes : Int
  reactions : List Reaction
deriving DecidableEq

/-- `update.reactions.findIndex(r => r.user.toString() === socket.userId)`,
returning the type of the first reaction of `uid` (the handler only ever
uses the found element's `type`). `none` means `findIndex` returned `-1`. -/
def findFirst : List Reaction → String → Option ReactionType
  | [], _ => none
  | r :: rs, uid => if r.user = uid then some r.type else findFirst rs uid

/-- `update.reactions.splice(existingReactionIndex, 1)`: removes the first
reaction whose `user` is `uid` (the element `findIndex` located). -/
def removeFirst : List Reaction → String → List Reaction
  | [], _ => []
  | r :: rs, uid => if r.user = uid then rs else r :: removeFirst rs uid

/-- `update.reactions[existingReactionIndex].type = reactionType`: rewrites
the type of the first reaction whose `user` is `uid`. -/
def setFirst : List Reaction → String → ReactionType → List Reaction
  | [], _, _ => []
  | r :: rs, uid, t => if r.user = uid then { r with type := t } :: rs else r :: setFirst rs uid t

/-- The read-modify-write body of the `updateReaction` handler
(`src/socket.js` lines 168-202), acting on the loaded `UpdatePost`:
* no existing reaction: push `{user, type}` and bump the requested counter;
* existing reaction of the same type: splice it out and clamp-decrement
  that counter (`Math.max(0, c - 1)`);
* existing reaction of the other type: overwrite its type, bump the
  requested counter and clamp-decrement the other one. -/
def updateReactionCore (u : UpdatePost) (uid : String) (rt : ReactionType) : UpdatePost :=
  match findFirst u.reactions uid with
  | some existingType =>
    if existingType = rt then
      { u with
        reactions := removeFirst u.reactions uid
        likes := if rt = .like then max 0 (u.likes - 1) else u.likes
        dislikes := if rt = .dislike then max 0 (u.dislikes - 1) else u.dislikes }
    else
      { u with
        reactions := setFirst u.reactions uid rt
        likes := if rt = .like then u.likes + 1 else max 0 (u.likes - 1)
        dislikes := if rt = .dislike then u.dislikes + 1 else max 0 (u.dislikes - 1) }
  | none =>
    { u with
      reactions := u.reactions ++ [⟨uid, rt⟩]
      likes := if rt = .like then u.likes + 1 else u.likes
      dislikes := if rt = .dislike then u.dislikes + 1 else u.dislikes }

/-- Number of reactions of type `t` in a reaction list (the projection the
spec says `likes`/`dislikes` must cache). -/
def countTypeN (rs : List Reaction) (t : ReactionType) : Nat :=
  (rs.filter (fun r => r.type = t)).length

/-- The cached counter of an `UpdatePost` for a given reaction type. -/
def cachedCount (u : UpdatePost) : ReactionType → Int
  | .like => u.likes
  | .dislike => u.dislikes

/-- A whole sequence of `updateReaction` calls applied in order. -/
def reactOps (u : UpdatePost) (ops : List (String × ReactionType)) : UpdatePost :=
  ops.foldl (fun acc op => updateReactionCore acc op.1 op.2) u

/-! ### Connection registry (`onlineUsersMap : Map userId (Set socketId)`) -/

/-- The in-memory `onlineUsersMap`, an insertion-ordered map from user id
to the set of that user's live socket ids.  JS `Map`/`Set` preserve
insertion order and never hold duplicates, so both are embedded as lists
with guarded insertion. -/
abbrev Registry := List (String × List String)

/-- `map.get(k)` / `map.has(k)`: first-match association-list lookup
(a JS `Map` has at most one entry per key). -/
def lookupA {α : Type} (l : List (String × α)) (k : String) : Option α :=
  (l.find? (fun p => p.1 = k)).map (fun p => p.2)

/-- The `userLogin` registry mutation:
`if (!map.has(uid)) map.set(uid, new Set()); map.get(uid).add(sid)` —
add `sid` to the user's set (idempotent), creating the entry (at the end,
as `Map.set` of a fresh key does) if absent. -/
def regAdd : Registry → String → String → Registry
  | [], uid, sid => [(uid, [sid])]
  | (u, ss) :: rest, uid, sid =>
    if u = uid then (u, if sid ∈ ss then ss else sid :: ss) :: rest
    else (u, ss) :: regAdd rest uid sid

/-- The `userLogout` registry mutation: `onlineUsersMap.delete(userId)` —
removes the user's (unique) entry wholesale. -/
def regLogout : Registry → String → Registry
  | [], _ => []
  | (u, ss) :: rest, uid => if u = uid then rest else (u, ss) :: regLogout rest uid

/-- The `disconnect` registry scan (`src/socket.js` lines 261-271): walk the
entries in order, at the first set containing `sid` delete `sid`; if the set
became empty delete the entry and record the user id, then `break`.
Returns the new registry and `disconnectedUserId` (`none` for JS `null`). -/
def regDisconnect : Registry → String → Registry × Option String
  | [], _ => ([], none)
  | (u, ss) :: rest, sid =>
    if sid ∈ ss then
      if ss.erase sid = [] then (rest, some u)
      else ((u, ss.erase sid) :: rest, none)
    else
      ((u, ss) :: (regDisconnect rest sid).1, (regDisconnect rest sid).2)

/-- The inbound events that touch (or, for `joinUserRoom`, explicitly do
not touch) the connection registry. -/
inductive SockEvent where
  | joinRoom (uid : String)
  | login (uid sid : String)
  | logout (uid : String)
  | disconnect (sid : String)
deriving DecidableEq

/-- One event's effect on the registry.  `joinRoom` only calls
`socket.join` and leaves `onlineUsersMap` untouched. -/
def stepReg (r : Registry) : SockEvent → Registry
  | .joinRoom _ => r
  | .login uid sid => regAdd r uid sid
  | .logout uid => regLogout r uid
  | .disconnect sid => (regDisconnect r sid).1

/-- The registry after a whole sequence of inbound events. -/
def runReg (r : Registry) (evs : List SockEvent) : Registry :=
  evs.foldl stepReg r

/-- `sid` is registered under `uid` in some entry of the registry. -/
def memAny (r : Registry) (uid sid : String) : Prop :=
  ∃ p ∈ r, p.1 = uid ∧ sid ∈ p.2

/-- `onlineUsersMap.has(uid)`: the registry reports the user online. -/
def isOnlineReg (r : Registry) (uid : String) : Bool :=
  (lookupA r uid).isSome

/-- The user's connection set as the registry stores it (empty if absent). -/
def connSet (r : Registry) (uid : String) : List String :=
  (lookupA r uid).getD []

/-- Every socket id logs in under at most one user id in the event list
(checked pairwise over the `login` events). -/
def consistentB (evs : List SockEvent) : Bool :=
  evs.all (fun e1 => evs.all (fun e2 =>
    match e1, e2 with
    | .login u s, .login v t => s != t || u == v
    | _, _ => true))

/-! ### Persisted store and the presence broadcaster -/

/-- The fields of a `User` document relevant to presence: the visibility
flag `emitOnlineUsers` filters on, and the `isOnline` flag `userLogin` /
`userLogout` / `disconnect` write. -/
structure UserDoc where
  showOnlineStatus : Bool
  isOnline : Bool
deriving DecidableEq

/-- The field of a `UserSettings` document the `updateSettings` handler
writes (`showLastSeen` and the rest are irrelevant to presence). -/
structure SettingsDoc where
  showOnlineStatus : Bool
deriving DecidableEq

/-- The external data store: the `User` collection and the separate
`UserSettings` collection, each keyed by user id. -/
structure Store where
  users : List (String × UserDoc)
  settings : List (String × SettingsDoc)
deriving DecidableEq

/-- `emitOnlineUsers` (`src/socket.js` lines 25-47): take the registry's
keys and keep those whose `User` document (not `UserSettings`!) has
`showOnlineStatus: true`; the result is the broadcast `onlineUsers`
snapshot (projected to user ids). -/
def emitOnlineUsersList (r : Registry) (store : Store) : List String :=
  (r.map (fun p => p.1)).filter (fun uid =>
    match lookupA store.users uid with
    | some d => d.showOnlineStatus
    | none => false)

/-- `UserSettings.findOneAndUpdate({user}, {$set: updatedSettings},
{upsert: true})` restricted to the `showOnlineStatus` field: update the
first matching settings document, or append a fresh one. -/
def upsertSettings : List (String × SettingsDoc) → String → Bool → List (String × SettingsDoc)
  | [], uid, b => [(uid, ⟨b⟩)]
  | (u, d) :: rest, uid, b =>
    if u = uid then (u, ⟨b⟩) :: rest else (u, d) :: upsertSettings rest uid b

/-- The `updateSettings` handler (`src/socket.js` lines 292-317) for a
payload carrying `showOnlineStatus` (an `Option Bool`; `none` models a
payload without that boolean).  It writes the `UserSettings` collection
and returns whether it re-emitted the online users list (it does exactly
when the payload carried a boolean `showOnlineStatus`). -/
def updateSettingsHandler (store : Store) (auth : Option String) (newShow : Option Bool) :
    Store × Bool :=
  match auth with
  | none => (store, false)
  | some uid =>
    match newShow with
    | some b => ({ store with settings := upsertSettings store.settings uid b }, true)
    | none => (store, false)

/-- `User.findByIdAndUpdate(uid, {isOnline: b, lastSeen: ...})`: updates
only the `isOnline` field of the user's document (never the
`showOnlineStatus` field). -/
def setUserOnline : List (String × UserDoc) → String → Bool → List (String × UserDoc)
  | [], _, _ => []
  | (u, d) :: rest, uid, b =>
    if u = uid then (u, { d with isOnline := b }) :: rest
    else (u, d) :: setUserOnline rest uid b

/-! ### Presence handlers with effect traces -/

/-- Observable effects of the presence handlers, in program order. -/
inductive PresEffect where
  | registryAdd (uid sid : String)
  | registryDeleteUser (uid : String)
  | dbOnlineWrite (uid : String) (isOnline : Bool)
  | broadcastOnline
deriving DecidableEq

/-- The `userLogin` handler (`src/socket.js` lines 212-237): add the
socket to the registry, then `await` the `isOnline: true` store write,
then re-emit the online users.  `dbOk = false` models the store write
rejecting: the `catch` only logs, so the registry keeps the association
and only the broadcast is skipped. -/
def userLoginHandler (r : Registry) (uid sid : String) (dbOk : Bool) :
    Registry × List PresEffect :=
  (regAdd r uid sid,
    if dbOk then
      [.registryAdd uid sid, .dbOnlineWrite uid true, .broadcastOnline]
    else
      [.registryAdd uid sid, .dbOnlineWrite uid true])

/-- The `userLogout` handler (`src/socket.js` lines 241-254): delete the
user's whole registry entry, write `isOnline: false`, re-emit. -/
def userLogoutHandler (r : Registry) (uid : String) (dbOk : Bool) :
    Registry × List PresEffect :=
  (regLogout r uid,
    if dbOk then
      [.registryDeleteUser uid, .dbOnlineWrite uid false, .broadcastOnline]
    else
      [.registryDeleteUser uid, .dbOnlineWrite uid false])

/-- The `disconnect` handler (`src/socket.js` lines 256-288): run the
registry scan; only if it emptied some user's connection set (returning
that user id) write `isOnline: false` and re-emit the online users.
Otherwise there is no store write and no broadcast. -/
def disconnectHandler (r : Registry) (sid : String) : Registry × List PresEffect :=
  match regDisconnect r sid with
  | (r2, some uid) => (r2, [.dbOnlineWrite uid false, .broadcastOnline])
  | (r2, none) => (r2, [])

/-! ### Message / update / reaction handlers with effect traces -/

/-- Observable effects of the `sendMessage` handler. -/
inductive MsgEffect where
  | persistMessage (sender recipient text : String)
  | emitNewMessage (room : String)
  | emitMessageSent (room : String)
  | emitMessageError
deriving DecidableEq

/-- The `sendMessage` handler (`src/socket.js` lines 63-126).
`auth` is `socket.userId`; an unauthenticated socket makes the handler
`return` after a `console.error`, with no emit and no store write.
`saveOk` models `newMessage.save()` resolving; `populateOk` models the
two `populate` calls resolving.  Any rejection lands in the `catch`,
which emits `messageError` to the originating socket only. -/
def sendMessage (auth : Option String) (recipientId text : String)
    (saveOk populateOk : Bool) : List MsgEffect :=
  match auth with
  | none => []
  | some uid =>
    if saveOk then
      if populateOk then
        [.persistMessage uid recipientId text, .emitNewMessage recipientId,
         .emitMessageSent uid]
      else
        [.persistMessage uid recipientId text, .emitMessageError]
    else
      [.emitMessageError]

/-- Observable effects of the `createUpdate` handler. -/
inductive UpdEffect where
  | persistUpdate (organizer title description : String)
  | emitNewUpdate
  | emitUpdateError
deriving DecidableEq

/-- The `createUpdate` handler (`src/socket.js` lines 129-151):
unauthenticated sockets get a silent `return`; a failed save lands in the
`catch`, which emits `updateError` to the originating socket. -/
def createUpdateHandler (auth : Option String) (title description : String)
    (saveOk : Bool) : List UpdEffect :=
  match auth with
  | none => []
  | some uid =>
    if saveOk then [.persistUpdate uid title description, .emitNewUpdate]
    else [.emitUpdateError]

/-- Observable effects of the `updateReaction` handler. -/
inductive ReactEffect where
  | persistUpdatePost (id : String) (u : UpdatePost)
  | emitReactionBroadcast (u : UpdatePost)
  | emitUpdateError (msg : String)
deriving DecidableEq

/-- The full `updateReaction` handler (`src/socket.js` lines 153-210) over
an `Event` collection keyed by update id: unauthenticated sockets get a
silent `return`; an unresolved `updateId` emits a targeted
`'Update not found'` error; otherwise the loaded document is transformed
by `updateReactionCore`, saved (`saveOk`), and broadcast.  A failed save
leaves the collection unchanged and emits a targeted error. -/
def updateReactionHandler (auth : Option String) (updates : List (String × UpdatePost))
    (updateId : String) (rt : ReactionType) (saveOk : Bool) :
    List (String × UpdatePost) × List ReactEffect :=
  match auth with
  | none => (updates, [])
  | some uid =>
    match lookupA updates updateId with
    | none => (updates, [.emitUpdateError "Update not found"])
    | some u =>
      if saveOk then
        ((updates.map (fun p => if p.1 = updateId then (p.1, updateReactionCore u uid rt) else p)),
         [.persistUpdatePost updateId (updateReactionCore u uid rt),
          .emitReactionBroadcast (updateReactionCore u uid rt)])
      else
        (updates, [.emitUpdateError "Failed to react to update"])

/-- The §4.4 transition table for one `react` call, as a predicate on the
pre-state `u`: the resulting reaction list, the counter deltas for the
requested type and for the other type in each of the three cases
(no existing reaction / same type / other type), and the like-like-like
toggle chain starting from no reaction. -/
def reactionTableProp (u : UpdatePost) (uid : String) (rt : ReactionType) : Prop :=
  (findFirst u.reactions uid = none →
     (updateReactionCore u uid rt).reactions = u.reactions ++ [⟨uid, rt⟩] ∧
     cachedCount (updateReactionCore u uid rt) rt = cachedCount u rt + 1 ∧
     cachedCount (updateReactionCore u uid rt) rt.other = cachedCount u rt.other)
  ∧
  (findFirst u.reactions uid = some rt →
     (updateReactionCore u uid rt).reactions = removeFirst u.reactions uid ∧
     cachedCount (updateReactionCore u uid rt) rt = cachedCount u rt - 1 ∧
     cachedCount (updateReactionCore u uid rt) rt.other = cachedCount u rt.other)
  ∧
  (findFirst u.reactions uid = some rt.other →
     (updateReactionCore u uid rt).reactions = setFirst u.reactions uid rt ∧
     findFirst (updateReactionCore u uid rt).reactions uid = some rt ∧
     cachedCount (updateReactionCore u uid rt) rt = cachedCount u rt + 1 ∧
     cachedCount (updateReactionCore u uid rt) rt.other = cachedCount u rt.other - 1)
  ∧
  (findFirst u.reactions uid = none →
     findFirst (updateReactionCore u uid .like).reactions uid = some .like ∧
     findFirst (updateReactionCore (updateReactionCore u uid .like) uid .like).reactions uid
       = none ∧
     findFirst (updateReactionCore (updateReactionCore (updateReactionCore u uid .like)
       uid .like) uid .like).reactions uid = some .like)

/-! ### Helper lemmas about the reaction aggregator -/

namespace ReactionLemmas

theorem countTypeN_cons (r : Reaction) (rs : List Reaction) (t : ReactionType) :
    countTypeN (r :: rs) t = (if r.type = t then 1 else 0) + countTypeN rs t := by
  by_cases h : r.type = t <;> simp [countTypeN, List.filter, h, Nat.add_comm]

theorem countTypeN_append_single (rs : List Reaction) (uid : String) (rt t : ReactionType) :
    countTypeN (rs ++ [⟨uid, rt⟩]) t = countTypeN rs t + (if rt = t then 1 else 0) := by
  induction rs with
  | nil => by_cases h : rt = t <;> simp [countTypeN, List.filter, h]
  | cons r rs ih =>
    rw [List.cons_append, countTypeN_cons, countTypeN_cons, ih]
    omega

theorem findFirst_pos (rs : List Reaction) (uid : String) (t : ReactionType)
    (h : findFirst rs uid = some t) : 1 ≤ countTypeN rs t := by
  induction rs with
  | nil => simp [findFirst] at h
  | cons r rs ih =>
    rw [countTypeN_cons]
    by_cases hu : r.user = uid
    · simp [findFirst, hu] at h
      simp [h]
    · simp [findFirst, hu] at h
      have := ih h
      omega

theorem countTypeN_removeFirst_self (rs : List Reaction) (uid : String) (t : ReactionType)
    (h : findFirst rs uid = some t) :
    countTypeN rs t = countTypeN (removeFirst rs uid) t + 1 := by
  induction rs with
  | nil => simp [findFirst] at h
  | cons r rs ih =>
    by_cases hu : r.user = uid
    · simp [findFirst, hu] at h
      simp [removeFirst, hu, countTypeN_cons, h, Nat.add_comm]
    · simp [findFirst, hu] at h
      simp [removeFirst, hu, countTypeN_cons, ih h]
      omega

theorem countTypeN_removeFirst_other (rs : List Reaction) (uid : String) (t tOther : ReactionType)
    (h : findFirst rs uid = some t) (hne : tOther ≠ t) :
    countTypeN (removeFirst rs uid) tOther = countTypeN rs tOther := by
  induction rs with
  | nil => simp [findFirst] at h
  | cons r rs ih =>
    by_cases hu : r.user = uid
    · simp [findFirst, hu] at h
      have : ¬ (r.type = tOther) := by
        rw [h]; exact fun hc => hne hc.symm
      simp [removeFirst, hu, countTypeN_cons, this]
    · simp [findFirst, hu] at h
      simp [removeFirst, hu, countTypeN_cons, ih h]

theorem countTypeN_setFirst_new (rs : List Reaction) (uid : String) (t rt : ReactionType)
    (h : findFirst rs uid = some t) (hne : t ≠ rt) :
    countTypeN (setFirst rs uid rt) rt = countTypeN rs rt + 1 := by
  induction rs with
  | nil => simp [findFirst] at h
  | cons r rs ih =>
    by_cases hu : r.user = uid
    · simp [findFirst, hu] at h
      have : ¬ (r.type = rt) := by rw [h]; exact hne
      simp [setFirst, hu, countTypeN_cons, this, Nat.add_comm]
    · simp [findFirst, hu] at h
      simp [setFirst, hu, countTypeN_cons, ih h]
      omega

theorem countTypeN_setFirst_old (rs : List Reaction) (uid : String) (t rt : ReactionType)
    (h : findFirst rs uid = some t) (hne : t ≠ rt) :
    countTypeN rs t = countTypeN (setFirst rs uid rt) t + 1 := by
  induction rs with
  | nil => simp [findFirst] at h
  | cons r rs ih =>
    by_cases hu : r.user = uid
    · simp [findFirst, hu] at h
      have hrt : ¬ (rt = t) := fun hc => hne hc.symm
      simp [setFirst, hu, countTypeN_cons, h, hrt, Nat.add_comm]
    · simp [findFirst, hu] at h
      simp [setFirst, hu, countTypeN_cons, ih h]
      omega

theorem findFirst_append_single (rs : List Reaction) (uid : String) (t : ReactionType)
    (h : findFirst rs uid = none) :
    findFirst (rs ++ [⟨uid, t⟩]) uid = some t := by
  induction rs with
  | nil => simp [findFirst]
  | cons r rs ih =>
    by_cases hu : r.user = uid
    · simp [findFirst, hu] at h
    · simp [findFirst, hu] at h ⊢
      exact ih h

theorem removeFirst_append_single (rs : List Reaction) (uid : String) (t : ReactionType)
    (h : findFirst rs uid = none) :
    removeFirst (rs ++ [⟨uid, t⟩]) uid = rs := by
  induction rs with
  | nil => simp [removeFirst]
  | cons r rs ih =>
    by_cases hu : r.user = uid
    · simp [findFirst, hu] at h
    · simp [findFirst, hu] at h
      simp [removeFirst, hu, ih h]

theorem findFirst_setFirst (rs : List Reaction) (uid : String) (t rt : ReactionType)
    (h : findFirst rs uid = some t) :
    findFirst (setFirst rs uid rt) uid = some rt := by
  induction rs with
  | nil => simp [findFirst] at h
  | cons r rs ih =>
    by_cases hu : r.user = uid
    · simp [setFirst, findFirst, hu]
    · simp [findFirst, hu] at h
      simp [setFirst, findFirst, hu, ih h]

theorem core_reactions_none (u : UpdatePost) (uid : String) (rt : ReactionType)
    (h : findFirst u.reactions uid = none) :
    (updateReactionCore u uid rt).reactions = u.reactions ++ [⟨uid, rt⟩] := by
  simp [updateReactionCore, h]

theorem core_reactions_same (u : UpdatePost) (uid : String) (rt : ReactionType)
    (h : findFirst u.reactions uid = some rt) :
    (updateReactionCore u uid rt).reactions = removeFirst u.reactions uid := by
  simp [updateReactionCore, h]

end ReactionLemmas

/-! ### Claim theorems -/

section ClaimTheorems

open ReactionLemmas

/-- Claim C1: on an update whose cached counters equal the per-type
reaction counts (the §3 invariant, under which §4.4's clamp never bites),
a `react(updateId, userId, reactionType)` call follows the §4.4 transition
table — no existing reaction: append one of the requested type, that
type's counter +1, the other unchanged; existing reaction of the same
type: remove it, that type's counter -1; existing reaction of the other
type: switch it, requested counter +1, the other -1 — and, starting from
no reaction, reacting `like` twice leaves the user with no reaction while
a third identical call restores `like`. -/
theorem reaction_transition_table (u : UpdatePost) (uid : String) (rt : ReactionType)
    (hL : u.likes = (countTypeN u.reactions .like : Int))
    (hD : u.dislikes = (countTypeN u.reactions .dislike : Int)) :
    reactionTableProp u uid rt := by
  unfold reactionTableProp
  refine ⟨?_, ?_, ?_, ?_⟩
  · intro h
    cases rt <;>
      simp [updateReactionCore, h, cachedCount, ReactionType.other]
  · intro h
    have hpos := findFirst_pos u.reactions uid rt h
    cases rt with
    | like =>
      have hrec : updateReactionCore u uid .like
          = { likes := max 0 (u.likes - 1), dislikes := u.dislikes,
              reactions := removeFirst u.reactions uid } := by
        simp [updateReactionCore, h]
      rw [hrec]
      refine ⟨rfl, ?_, ?_⟩
      · simp only [cachedCount]
        omega
      · simp [cachedCount, ReactionType.other]
    | dislike =>
      have hrec : updateReactionCore u uid .dislike
          = { likes := u.likes, dislikes := max 0 (u.dislikes - 1),
              reactions := removeFirst u.reactions uid } := by
        simp [updateReactionCore, h]
      rw [hrec]
      refine ⟨rfl, ?_, ?_⟩
      · simp only [cachedCount]
        omega
      · simp [cachedCount, ReactionType.other]
  · intro h
    have hpos := findFirst_pos u.reactions uid rt.other h
    cases rt with
    | like =>
      simp only [ReactionType.other] at h hpos
      have hrec : updateReactionCore u uid .like
          = { likes := u.likes + 1, dislikes := max 0 (u.dislikes - 1),
              reactions := setFirst u.reactions uid .like } := by
        simp [updateReactionCore, h]
      rw [hrec]
      refine ⟨rfl, ?_, ?_, ?_⟩
      · exact findFirst_setFirst u.reactions uid _ _ h
      · simp [cachedCount]
      · simp only [cachedCount, ReactionType.other]
        omega
    | dislike =>
      simp only [ReactionType.other] at h hpos
      have hrec : updateReactionCore u uid .dislike
          = { likes := max 0 (u.likes - 1), dislikes := u.dislikes + 1,
              reactions := setFirst u.reactions uid .dislike } := by
        simp [updateReactionCore, h]
      rw [hrec]
      refine ⟨rfl, ?_, ?_, ?_⟩
      · exact findFirst_setFirst u.reactions uid _ _ h
      · simp [cachedCount]
      · simp only [cachedCount, ReactionType.other]
        omega
  · intro h
    have h1r := core_reactions_none u uid .like h
    have h1f : findFirst (updateReactionCore u uid .like).reactions uid = some .like := by
      rw [h1r]
      exact findFirst_append_single u.reactions uid .like h
    have h2r : (updateReactionCore (updateReactionCore u uid .like) uid .like).reactions
        = u.reactions := by
      rw [core_reactions_same _ uid .like h1f, h1r]
      exact removeFirst_append_single u.reactions uid .like h
    have h2f : findFirst
        (updateReactionCore (updateReactionCore u uid .like) uid .like).reactions uid
          = none := by
      rw [h2r]; exact h
    refine ⟨h1f, h2f, ?_⟩
    rw [core_reactions_none _ uid .like h2f]
    exact findFirst_append_single _ uid .like h2f

/-- Witness for `reaction_transition_table`: the hypotheses hold and the
transition table is realised at the concrete update
`{likes := 1, dislikes := 0, reactions := [(a, like)]}`. -/
theorem reaction_transition_table_witness :
    ((⟨1, 0, [⟨"a", ReactionType.like⟩]⟩ : UpdatePost).likes
        = (countTypeN [⟨"a", ReactionType.like⟩] .like : Int))
    ∧ ((⟨1, 0, [⟨"a", ReactionType.like⟩]⟩ : UpdatePost).dislikes
        = (countTypeN [⟨"a", ReactionType.like⟩] .dislike : Int))
    ∧ reactionTableProp ⟨1, 0, [⟨"a", ReactionType.like⟩]⟩ "a" ReactionType.like :=
  ⟨by decide, by decide,
    reaction_transition_table ⟨1, 0, [⟨"a", ReactionType.like⟩]⟩ "a" ReactionType.like
      (by decide) (by decide)⟩

/-- Claim C2: if `likes` equals the number of `like` reactions and
`dislikes` the number of `dislike` reactions, then after any
`react(updateId, userId, reactionType)` read-modify-write the cached
counters again equal the per-type counts of the new reaction list. -/
theorem reaction_counts_cached_projection (u : UpdatePost) (uid : String) (rt : ReactionType)
    (hL : u.likes = (countTypeN u.reactions .like : Int))
    (hD : u.dislikes = (countTypeN u.reactions .dislike : Int)) :
    (updateReactionCore u uid rt).likes
      = (countTypeN (updateReactionCore u uid rt).reactions .like : Int) ∧
    (updateReactionCore u uid rt).dislikes
      = (countTypeN (updateReactionCore u uid rt).reactions .dislike : Int) := by
  cases hf : findFirst u.reactions uid with
  | none =>
    cases rt with
    | like =>
      have hrec : updateReactionCore u uid .like
          = { likes := u.likes + 1, dislikes := u.dislikes,
              reactions := u.reactions ++ [⟨uid, .like⟩] } := by
        simp [updateReactionCore, hf]
      rw [hrec]
      constructor <;> simp [countTypeN_append_single] <;> omega
    | dislike =>
      have hrec : updateReactionCore u uid .dislike
          = { likes := u.likes, dislikes := u.dislikes + 1,
              reactions := u.reactions ++ [⟨uid, .dislike⟩] } := by
        simp [updateReactionCore, hf]
      rw [hrec]
      constructor <;> simp [countTypeN_append_single] <;> omega
  | some t =>
    have hpos := findFirst_pos u.reactions uid t hf
    cases t with
    | like =>
      cases rt with
      | like =>
        have hrec : updateReactionCore u uid .like
            = { likes := max 0 (u.likes - 1), dislikes := u.dislikes,
                reactions := removeFirst u.reactions uid } := by
          simp [updateReactionCore, hf]
        rw [hrec]
        have h1 := countTypeN_removeFirst_self u.reactions uid .like hf
        have h2 := countTypeN_removeFirst_other u.reactions uid .like .dislike hf (by decide)
        constructor <;> simp only [] <;> omega
      | dislike =>
        have hrec : updateReactionCore u uid .dislike
            = { likes := max 0 (u.likes - 1), dislikes := u.dislikes + 1,
                reactions := setFirst u.reactions uid .dislike } := by
          simp [updateReactionCore, hf]
        rw [hrec]
        have h1 := countTypeN_setFirst_old u.reactions uid .like .dislike hf (by decide)
        have h2 := countTypeN_setFirst_new u.reactions uid .like .dislike hf (by decide)
        constructor <;> simp only [] <;> omega
    | dislike =>
      cases rt with
      | like =>
        have hrec : updateReactionCore u uid .like
            = { likes := u.likes + 1, dislikes := max 0 (u.dislikes - 1),
                reactions := setFirst u.reactions uid .like } := by
          simp [updateReactionCore, hf]
        rw [hrec]
        have h1 := countTypeN_setFirst_old u.reactions uid .dislike .like hf (by decide)
        have h2 := countTypeN_setFirst_new u.reactions uid .dislike .like hf (by decide)
        constructor <;> simp only [] <;> omega
      | dislike =>
        have hrec : updateReactionCore u uid .dislike
            = { likes := u.likes, dislikes := max 0 (u.dislikes - 1),
                reactions := removeFirst u.reactions uid } := by
          simp [updateReactionCore, hf]
        rw [hrec]
        have h1 := countTypeN_removeFirst_self u.reactions uid .dislike hf
        have h2 := countTypeN_removeFirst_other u.reactions uid .dislike .like hf (by decide)
        constructor <;> simp only [] <;> omega

/-- Witness for `reaction_counts_cached_projection`: a `dislike` call by
the user holding the only `like` switches the reaction and the cached
counters still match the reaction list. -/
theorem reaction_counts_cached_projection_witness :
    ((⟨1, 0, [⟨"a", ReactionType.like⟩]⟩ : UpdatePost).likes
        = (countTypeN [⟨"a", ReactionType.like⟩] .like : Int))
    ∧ ((⟨1, 0, [⟨"a", ReactionType.like⟩]⟩ : UpdatePost).dislikes
        = (countTypeN [⟨"a", ReactionType.like⟩] .dislike : Int))
    ∧ ((updateReactionCore ⟨1, 0, [⟨"a", ReactionType.like⟩]⟩ "a" .dislike).likes
        = (countTypeN
            (updateReactionCore ⟨1, 0, [⟨"a", ReactionType.like⟩]⟩ "a" .dislike).reactions
            .like : Int)
      ∧ (updateReactionCore ⟨1, 0, [⟨"a", ReactionType.like⟩]⟩ "a" .dislike).dislikes
        = (countTypeN
            (updateReactionCore ⟨1, 0, [⟨"a", ReactionType.like⟩]⟩ "a" .dislike).reactions
            .dislike : Int)) :=
  ⟨by decide, by decide,
    reaction_counts_cached_projection ⟨1, 0, [⟨"a", ReactionType.like⟩]⟩ "a" .dislike
      (by decide) (by decide)⟩

end ClaimTheorems

/-- One react call keeps both counters non-negative: increments preserve
non-negativity and every decrement is `Math.max(0, c - 1)`. -/
theorem core_counts_nonneg (u : UpdatePost) (uid : String) (rt : ReactionType)
    (hL : 0 ≤ u.likes) (hD : 0 ≤ u.dislikes) :
    0 ≤ (updateReactionCore u uid rt).likes ∧ 0 ≤ (updateReactionCore u uid rt).dislikes := by
  cases hf : findFirst u.reactions uid with
  | none =>
    cases rt <;> simp [updateReactionCore, hf] <;> omega
  | some t =>
    by_cases ht : t = rt
    · subst ht
      cases t <;> simp [updateReactionCore, hf] <;> omega
    · cases t <;> cases rt <;> simp [updateReactionCore, hf, ht] <;> omega

/-- Claim C8: from any state with non-negative counters — including
states where the cached counts have drifted from the reaction list — no
sequence of `react(updateId, userId, reactionType)` operations ever makes
`likes` or `dislikes` negative: every decrement is clamped at 0. -/
theorem reaction_counts_never_negative (u : UpdatePost) (ops : List (String × ReactionType))
    (hL : 0 ≤ u.likes) (hD : 0 ≤ u.dislikes) :
    0 ≤ (reactOps u ops).likes ∧ 0 ≤ (reactOps u ops).dislikes := by
  induction ops generalizing u with
  | nil => exact ⟨hL, hD⟩
  | cons op ops ih =>
    have h := core_counts_nonneg u op.1 op.2 hL hD
    have := ih (updateReactionCore u op.1 op.2) h.1 h.2
    simpa [reactOps, List.foldl_cons] using this

/-- Witness for `reaction_counts_never_negative` at a drifted state
(`likes = 0` although a like reaction exists): the double-like plus a
dislike/like switch by another user keep both counters at 0 or above. -/
theorem reaction_counts_never_negative_witness :
    (0 : Int) ≤ (⟨0, 0, [⟨"a", ReactionType.like⟩]⟩ : UpdatePost).likes ∧
    (0 : Int) ≤ (⟨0, 0, [⟨"a", ReactionType.like⟩]⟩ : UpdatePost).dislikes ∧
    (0 ≤ (reactOps ⟨0, 0, [⟨"a", ReactionType.like⟩]⟩
        [("a", .like), ("b", .dislike), ("b", .like)]).likes ∧
     0 ≤ (reactOps ⟨0, 0, [⟨"a", ReactionType.like⟩]⟩
        [("a", .like), ("b", .dislike), ("b", .like)]).dislikes) :=
  ⟨by decide, by decide,
    reaction_counts_never_negative ⟨0, 0, [⟨"a", ReactionType.like⟩]⟩
      [("a", .like), ("b", .dislike), ("b", .like)] (by decide) (by decide)⟩

/-- Claim C4, counterexample: contrary to the claimed propagation policy,
an unauthenticated `sendMessage` / `createUpdate` / `updateReaction` emits
no targeted error event at all — the handlers log server-side and return,
so the effect trace of each is empty at these concrete inputs. -/
theorem unauthenticated_no_error_event_counterexample :
    MsgEffect.emitMessageError ∉ sendMessage none "r" "hi" true true ∧
    UpdEffect.emitUpdateError ∉ createUpdateHandler none "t" "d" true ∧
    (updateReactionHandler none [] "e1" .like true).2 = [] := by
  decide

/-- Claim C4 as amended: a `sendMessage`, `createUpdate` or
`updateReaction` event on a connection with no associated user identity
aborts with no side effects — nothing is persisted, nothing is delivered
to any connection, and (unlike the claim's error-event report) nothing at
all is emitted; the failure is only logged server-side. -/
theorem unauthenticated_silent_abort (recipientId text title description updateId : String)
    (rt : ReactionType) (saveOk populateOk : Bool) (updates : List (String × UpdatePost)) :
    sendMessage none recipientId text saveOk populateOk = [] ∧
    createUpdateHandler none title description saveOk = [] ∧
    updateReactionHandler none updates updateId rt saveOk = (updates, []) :=
  ⟨rfl, rfl, rfl⟩

/-- Claim C3, failing input: user `u1` is online and visible
(`User.showOnlineStatus = true`); an authenticated `updateSettings` with
`showOnlineStatus: false` does write `false` — but into the separate
`UserSettings` collection — and flags a re-broadcast; the broadcast it
triggers reads `User.showOnlineStatus`, which nothing updated, so the
emitted snapshot still contains `u1`, contradicting the claim (and the
handler's own intent of re-emitting because visibility changed). -/
theorem settings_visibility_divergence :
    (updateSettingsHandler ⟨[("u1", ⟨true, true⟩)], []⟩ (some "u1") (some false)).2 = true
    ∧ lookupA
        (updateSettingsHandler ⟨[("u1", ⟨true, true⟩)], []⟩ (some "u1") (some false)).1.settings
        "u1" = some ⟨false⟩
    ∧ emitOnlineUsersList [("u1", ["s1"])]
        (updateSettingsHandler ⟨[("u1", ⟨true, true⟩)], []⟩ (some "u1") (some false)).1
        = ["u1"] := by
  decide

/-- Claim C7: for an authenticated `sendMessage`, no `newMessage` or
`messageSent` emission precedes the successful save in the effect trace,
and if persistence fails the trace is exactly one `messageError` to the
originating connection — no delivery to anyone. -/
theorem message_persist_before_fanout (uid recipientId text : String)
    (saveOk populateOk : Bool) :
    (∀ n room,
       (MsgEffect.emitNewMessage room
          ∈ (sendMessage (some uid) recipientId text saveOk populateOk).take n
        ∨ MsgEffect.emitMessageSent room
          ∈ (sendMessage (some uid) recipientId text saveOk populateOk).take n) →
       MsgEffect.persistMessage uid recipientId text
         ∈ (sendMessage (some uid) recipientId text saveOk populateOk).take n) ∧
    (saveOk = false →
       sendMessage (some uid) recipientId text saveOk populateOk
         = [MsgEffect.emitMessageError]) := by
  cases saveOk with
  | false =>
    refine ⟨?_, fun _ => rfl⟩
    intro n room h
    cases n with
    | zero => simp at h
    | succ m => simp [sendMessage, List.take] at h
  | true =>
    cases populateOk with
    | false =>
      refine ⟨?_, by intro hc; exact absurd hc (by simp)⟩
      intro n room h
      cases n with
      | zero => simp at h
      | succ m => simp [sendMessage, List.take]
    | true =>
      refine ⟨?_, by intro hc; exact absurd hc (by simp)⟩
      intro n room h
      cases n with
      | zero => simp at h
      | succ m => simp [sendMessage, List.take]

/-- Witness for `message_persist_before_fanout`: the persistence-failure
branch at concrete inputs emits exactly the targeted error. -/
theorem message_persist_before_fanout_witness :
    sendMessage (some "a") "b" "hi" false true = [MsgEffect.emitMessageError] :=
  (message_persist_before_fanout "a" "b" "hi" false true).2 rfl

/-! ### Helper lemmas about the connection registry -/

theorem memAny_regAdd {r : Registry} {uid sid u s : String}
    (h : memAny (regAdd r uid sid) u s) :
    memAny r u s ∨ (u = uid ∧ s = sid) := by
  induction r with
  | nil =>
    obtain ⟨p, hp, h1, h2⟩ := h
    simp only [regAdd, List.mem_singleton] at hp
    subst hp
    simp only [List.mem_singleton] at h2
    exact Or.inr ⟨h1.symm, h2⟩
  | cons p0 rest ih =>
    obtain ⟨w, ss⟩ := p0
    by_cases hw : w = uid
    · simp only [regAdd, if_pos hw] at h
      obtain ⟨p, hp, h1, h2⟩ := h
      rcases List.mem_cons.mp hp with rfl | hpt
      · dsimp at h1 h2
        by_cases hm : sid ∈ ss
        · rw [if_pos hm] at h2
          exact Or.inl ⟨(w, ss), List.mem_cons_self _ _, h1, h2⟩
        · rw [if_neg hm] at h2
          rcases List.mem_cons.mp h2 with rfl | h2s
          · exact Or.inr ⟨h1.symm.trans hw, rfl⟩
          · exact Or.inl ⟨(w, ss), List.mem_cons_self _ _, h1, h2s⟩
      · exact Or.inl ⟨p, List.mem_cons_of_mem _ hpt, h1, h2⟩
    · simp only [regAdd, if_neg hw] at h
      obtain ⟨p, hp, h1, h2⟩ := h
      rcases List.mem_cons.mp hp with rfl | hpt
      · exact Or.inl ⟨(w, ss), List.mem_cons_self _ _, h1, h2⟩
      · rcases ih ⟨p, hpt, h1, h2⟩ with ⟨q, hq, hq1, hq2⟩ | hr
        · exact Or.inl ⟨q, List.mem_cons_of_mem _ hq, hq1, hq2⟩
        · exact Or.inr hr

theorem regLogout_sub {r : Registry} {uid : String} :
    ∀ p ∈ regLogout r uid, p ∈ r := by
  induction r with
  | nil => intro p hp; simp [regLogout] at hp
  | cons p0 rest ih =>
    obtain ⟨w, ss⟩ := p0
    intro p hp
    by_cases hw : w = uid
    · rw [regLogout, if_pos hw] at hp
      exact List.mem_cons_of_mem _ hp
    · rw [regLogout, if_neg hw] at hp
      rcases List.mem_cons.mp hp with rfl | hpt
      · exact List.mem_cons_self _ _
      · exact List.mem_cons_of_mem _ (ih p hpt)

theorem memAny_regLogout {r : Registry} {uid u s : String}
    (h : memAny (regLogout r uid) u s) : memAny r u s := by
  obtain ⟨p, hp, h1, h2⟩ := h
  exact ⟨p, regLogout_sub p hp, h1, h2⟩

theorem memAny_regDisconnect {r : Registry} {sid u s : String}
    (h : memAny (regDisconnect r sid).1 u s) : memAny r u s := by
  induction r with
  | nil =>
    obtain ⟨p, hp, _, _⟩ := h
    simp [regDisconnect] at hp
  | cons p0 rest ih =>
    obtain ⟨w, ss⟩ := p0
    by_cases hm : sid ∈ ss
    · by_cases he : ss.erase sid = []
      · simp only [regDisconnect, if_pos hm, if_pos he] at h
        obtain ⟨p, hp, h1, h2⟩ := h
        exact ⟨p, List.mem_cons_of_mem _ hp, h1, h2⟩
      · simp only [regDisconnect, if_pos hm, if_neg he] at h
        obtain ⟨p, hp, h1, h2⟩ := h
        rcases List.mem_cons.mp hp with rfl | hpt
        · exact ⟨(w, ss), List.mem_cons_self _ _, h1, List.mem_of_mem_erase h2⟩
        · exact ⟨p, List.mem_cons_of_mem _ hpt, h1, h2⟩
    · simp only [regDisconnect, if_neg hm] at h
      obtain ⟨p, hp, h1, h2⟩ := h
      rcases List.mem_cons.mp hp with rfl | hpt
      · exact ⟨(w, ss), List.mem_cons_self _ _, h1, h2⟩
      · rcases ih ⟨p, hpt, h1, h2⟩ with ⟨q, hq, hq1, hq2⟩
        exact ⟨q, List.mem_cons_of_mem _ hq, hq1, hq2⟩

theorem memAny_stepReg {r : Registry} {e : SockEvent} {u s : String}
    (h : memAny (stepReg r e) u s) :
    memAny r u s ∨ e = SockEvent.login u s := by
  cases e with
  | joinRoom _ => exact Or.inl h
  | login uid sid =>
    rcases memAny_regAdd h with hl | ⟨h1, h2⟩
    · exact Or.inl hl
    · subst h1; subst h2; exact Or.inr rfl
  | logout uid => exact Or.inl (memAny_regLogout h)
  | disconnect sid => exact Or.inl (memAny_regDisconnect h)

theorem memAny_runReg {r : Registry} {evs : List SockEvent} {u s : String}
    (h : memAny (runReg r evs) u s) :
    memAny r u s ∨ SockEvent.login u s ∈ evs := by
  induction evs generalizing r with
  | nil => exact Or.inl h
  | cons e evs ih =>
    have hrun : runReg r (e :: evs) = runReg (stepReg r e) evs := rfl
    rw [hrun] at h
    rcases ih h with hl | hr
    · rcases memAny_stepReg hl with h2 | h2
      · exact Or.inl h2
      · refine Or.inr ?_
        rw [← h2]
        exact List.mem_cons_self _ _
    · exact Or.inr (List.mem_cons_of_mem _ hr)

theorem consistentB_spec {evs : List SockEvent} (h : consistentB evs = true)
    {u v s : String} (hu : SockEvent.login u s ∈ evs) (hv : SockEvent.login v s ∈ evs) :
    u = v := by
  simp only [consistentB, List.all_eq_true] at h
  have := h _ hu _ hv
  simpa using this

theorem wf_regAdd {r : Registry} (h : ∀ p ∈ r, p.2 ≠ []) (uid sid : String) :
    ∀ p ∈ regAdd r uid sid, p.2 ≠ [] := by
  induction r with
  | nil =>
    intro p hp
    simp only [regAdd, List.mem_singleton] at hp
    subst hp
    simp
  | cons p0 rest ih =>
    obtain ⟨w, ss⟩ := p0
    intro p hp
    by_cases hw : w = uid
    · simp only [regAdd, if_pos hw] at hp
      rcases List.mem_cons.mp hp with rfl | hpt
      · by_cases hm : sid ∈ ss
        · simpa [if_pos hm] using List.ne_nil_of_mem hm
        · simp [if_neg hm]
      · exact h p (List.mem_cons_of_mem _ hpt)
    · simp only [regAdd, if_neg hw] at hp
      rcases List.mem_cons.mp hp with rfl | hpt
      · exact h (w, ss) (List.mem_cons_self _ _)
      · exact ih (fun q hq => h q (List.mem_cons_of_mem _ hq)) p hpt

theorem wf_regDisconnect {r : Registry} (h : ∀ p ∈ r, p.2 ≠ []) (sid : String) :
    ∀ p ∈ (regDisconnect r sid).1, p.2 ≠ [] := by
  induction r with
  | nil => intro p hp; simp [regDisconnect] at hp
  | cons p0 rest ih =>
    obtain ⟨w, ss⟩ := p0
    intro p hp
    by_cases hm : sid ∈ ss
    · by_cases he : ss.erase sid = []
      · simp only [regDisconnect, if_pos hm, if_pos he] at hp
        exact h p (List.mem_cons_of_mem _ hp)
      · simp only [regDisconnect, if_pos hm, if_neg he] at hp
        rcases List.mem_cons.mp hp with rfl | hpt
        · exact he
        · exact h p (List.mem_cons_of_mem _ hpt)
    · simp only [regDisconnect, if_neg hm] at hp
      rcases List.mem_cons.mp hp with rfl | hpt
      · exact h (w, ss) (List.mem_cons_self _ _)
      · exact ih (fun q hq => h q (List.mem_cons_of_mem _ hq)) p hpt

theorem wf_stepReg {r : Registry} (h : ∀ p ∈ r, p.2 ≠ []) (e : SockEvent) :
    ∀ p ∈ stepReg r e, p.2 ≠ [] := by
  cases e with
  | joinRoom _ => exact h
  | login uid sid => exact wf_regAdd h uid sid
  | logout uid => exact fun p hp => h p (regLogout_sub p hp)
  | disconnect sid => exact wf_regDisconnect h sid

theorem wf_runReg {r : Registry} (h : ∀ p ∈ r, p.2 ≠ []) (evs : List SockEvent) :
    ∀ p ∈ runReg r evs, p.2 ≠ [] := by
  induction evs generalizing r with
  | nil => exact h
  | cons e evs ih => exact ih (wf_stepReg h e)

theorem lookupA_mem {α : Type} {l : List (String × α)} {k : String} {v : α}
    (h : lookupA l k = some v) : ∃ p ∈ l, p.2 = v := by
  unfold lookupA at h
  cases hf : l.find? (fun p => p.1 = k) with
  | none => rw [hf] at h; simp at h
  | some p =>
    rw [hf] at h
    simp at h
    exact ⟨p, List.mem_of_find?_eq_some hf, h⟩

theorem lookupA_none_of_not_key {α : Type} {l : List (String × α)} {k : String}
    (h : ∀ p ∈ l, p.1 ≠ k) : lookupA l k = none := by
  induction l with
  | nil => rfl
  | cons p rest ih =>
    have hp : ¬ (p.1 = k) := h p (List.mem_cons_self _ _)
    unfold lookupA
    rw [List.find?_cons_of_neg _ (by simpa using hp)]
    exact ih (fun q hq => h q (List.mem_cons_of_mem _ hq))

theorem regLogout_keys {r : Registry} {u : String}
    (hnd : (r.map (fun p => p.1)).Nodup) : ∀ p ∈ regLogout r u, p.1 ≠ u := by
  induction r with
  | nil => intro p hp; simp [regLogout] at hp
  | cons p0 rest ih =>
    obtain ⟨w, ss⟩ := p0
    simp only [List.map_cons, List.nodup_cons] at hnd
    intro p hp
    by_cases hw : w = u
    · rw [regLogout, if_pos hw] at hp
      intro hpu
      exact hnd.1 (by
        have : p.1 ∈ rest.map (fun q => q.1) := List.mem_map_of_mem _ hp
        rwa [hpu, ← hw] at this)
    · rw [regLogout, if_neg hw] at hp
      rcases List.mem_cons.mp hp with rfl | hpt
      · exact hw
      · exact ih hnd.2 p hpt

theorem regDisconnect_not_mem {r : Registry} {sid : String}
    (h : ∀ p ∈ r, sid ∉ p.2) : regDisconnect r sid = (r, none) := by
  induction r with
  | nil => rfl
  | cons p0 rest ih =>
    obtain ⟨w, ss⟩ := p0
    have hm : sid ∉ ss := h (w, ss) (List.mem_cons_self _ _)
    have ihr := ih (fun q hq => h q (List.mem_cons_of_mem _ hq))
    simp only [regDisconnect, if_neg hm, ihr]

theorem regAdd_mem_self (r : Registry) (uid sid : String) :
    memAny (regAdd r uid sid) uid sid := by
  induction r with
  | nil => exact ⟨(uid, [sid]), by simp [regAdd], rfl, by simp⟩
  | cons p0 rest ih =>
    obtain ⟨w, ss⟩ := p0
    by_cases hw : w = uid
    · refine ⟨(w, if sid ∈ ss then ss else sid :: ss), ?_, hw, ?_⟩
      · simp [regAdd, hw]
      · by_cases hm : sid ∈ ss <;> simp [hm]
    · obtain ⟨p, hp, h1, h2⟩ := ih
      refine ⟨p, ?_, h1, h2⟩
      simp only [regAdd, if_neg hw]
      exact List.mem_cons_of_mem _ hp

theorem regAdd_isOnline (r : Registry) (uid sid : String) :
    isOnlineReg (regAdd r uid sid) uid = true := by
  induction r with
  | nil => simp [isOnlineReg, lookupA, regAdd, List.find?]
  | cons p0 rest ih =>
    obtain ⟨w, ss⟩ := p0
    by_cases hw : w = uid
    · simp [isOnlineReg, lookupA, regAdd, hw, List.find?]
    · simp only [regAdd, if_neg hw]
      simpa [isOnlineReg, lookupA, List.find?, hw] using ih

/-- Claim C5, counterexample: the same socket id can `userLogin` as two
different users; nothing removes it from the first user's set, so after
`login A s` and `login B s` the handle `s` sits in the connection sets of
both distinct users — refuting the claimed at-most-one-user invariant
over arbitrary event sequences. -/
theorem socket_two_users_counterexample :
    memAny (runReg [] [SockEvent.login "A" "s", SockEvent.login "B" "s"]) "A" "s"
    ∧ memAny (runReg [] [SockEvent.login "A" "s", SockEvent.login "B" "s"]) "B" "s"
    ∧ "A" ≠ "B" := by
  unfold memAny
  decide

/-- Claim C5 as amended: over any sequence of `joinUserRoom` / `userLogin`
/ `userLogout` / `disconnect` events in which no socket id logs in under
two distinct user ids, a connection handle never appears in the
connection sets of two distinct users simultaneously. -/
theorem socket_single_user_invariant (evs : List SockEvent) (h : consistentB evs = true)
    (u v s : String) (huv : u ≠ v) :
    ¬(memAny (runReg [] evs) u s ∧ memAny (runReg [] evs) v s) := by
  rintro ⟨hu, hv⟩
  have hu2 := memAny_runReg hu
  have hv2 := memAny_runReg hv
  have hmem : ∀ w : String, memAny ([] : Registry) w s → False := by
    intro w hw
    obtain ⟨p, hp, _, _⟩ := hw
    simp at hp
  rcases hu2 with hfalse | hulog
  · exact hmem u hfalse
  rcases hv2 with hfalse | hvlog
  · exact hmem v hfalse
  exact huv (consistentB_spec h hulog hvlog)

/-- Witness for `socket_single_user_invariant` on a consistent one-login
sequence. -/
theorem socket_single_user_invariant_witness :
    consistentB [SockEvent.login "A" "s"] = true ∧ ("A" : String) ≠ "B" ∧
    ¬(memAny (runReg [] [SockEvent.login "A" "s"]) "A" "s"
      ∧ memAny (runReg [] [SockEvent.login "A" "s"]) "B" "s") :=
  ⟨by decide, by decide,
    socket_single_user_invariant [SockEvent.login "A" "s"] (by decide) "A" "B" "s" (by decide)⟩

/-- Claim C6: over every sequence of inbound events starting from the
empty registry, a user is reported online iff their connection set is
non-empty; concretely, a user with two live connections stays online
after the first disconnect (the scan returns no user id), and the second
disconnect removes the entry and reports exactly that user offline. -/
theorem online_iff_connections_nonempty (evs : List SockEvent) (u : String) :
    (isOnlineReg (runReg [] evs) u = true ↔ connSet (runReg [] evs) u ≠ []) ∧
    (isOnlineReg (runReg []
        [SockEvent.login "u" "s1", SockEvent.login "u" "s2",
         SockEvent.disconnect "s1"]) "u" = true
     ∧ regDisconnect (runReg []
        [SockEvent.login "u" "s1", SockEvent.login "u" "s2",
         SockEvent.disconnect "s1"]) "s2" = ([], some "u")
     ∧ isOnlineReg (runReg []
        [SockEvent.login "u" "s1", SockEvent.login "u" "s2",
         SockEvent.disconnect "s1", SockEvent.disconnect "s2"]) "u" = false) := by
  constructor
  · have hwf : ∀ p ∈ runReg ([] : Registry) evs, p.2 ≠ [] :=
      wf_runReg (by simp) evs
    unfold isOnlineReg connSet
    cases hl : lookupA (runReg [] evs) u with
    | none => simp
    | some ss =>
      obtain ⟨p, hp, hv⟩ := lookupA_mem hl
      have hne : ss ≠ [] := hv ▸ hwf p hp
      simp [hne]
  · decide

/-- Claim C9: `userLogout(userId)` removes the user's whole connection set
in one step (`Map.delete`), so the registry reports them offline even if
they still had live connections; a later `disconnect` of such a still-live
socket finds no set containing it, leaves the registry unchanged, returns
no user id, and therefore performs no offline store write and no presence
broadcast.  Hypotheses: registry keys are unique (a JS `Map` guarantees
this) and the socket belongs only to the logged-out user. -/
theorem logout_removes_all_connections (r : Registry) (u sid : String)
    (hnd : (r.map (fun p => p.1)).Nodup)
    (hown : ∀ p ∈ r, sid ∈ p.2 → p.1 = u) :
    isOnlineReg (regLogout r u) u = false ∧
    regDisconnect (regLogout r u) sid = (regLogout r u, none) ∧
    disconnectHandler (regLogout r u) sid = (regLogout r u, []) := by
  have hkeys := regLogout_keys (r := r) (u := u) hnd
  have h1 : lookupA (regLogout r u) u = none := lookupA_none_of_not_key hkeys
  have hno : ∀ p ∈ regLogout r u, sid ∉ p.2 := by
    intro p hp hm
    exact hkeys p hp (hown p (regLogout_sub p hp) hm)
  have h2 := regDisconnect_not_mem hno
  refine ⟨by simp [isOnlineReg, h1], h2, ?_⟩
  simp [disconnectHandler, h2]

/-- Witness for `logout_removes_all_connections`: user `u` logs out while
holding two live sockets; the later disconnect of `s1` is a no-op. -/
theorem logout_removes_all_connections_witness :
    ((([("u", ["s1", "s2"]), ("v", ["t1"])] : Registry).map (fun p => p.1)).Nodup
     ∧ (∀ p ∈ ([("u", ["s1", "s2"]), ("v", ["t1"])] : Registry), "s1" ∈ p.2 → p.1 = "u"))
    ∧ (isOnlineReg (regLogout [("u", ["s1", "s2"]), ("v", ["t1"])] "u") "u" = false
       ∧ regDisconnect (regLogout [("u", ["s1", "s2"]), ("v", ["t1"])] "u") "s1"
           = (regLogout [("u", ["s1", "s2"]), ("v", ["t1"])] "u", none)
       ∧ disconnectHandler (regLogout [("u", ["s1", "s2"]), ("v", ["t1"])] "u") "s1"
           = (regLogout [("u", ["s1", "s2"]), ("v", ["t1"])] "u", [])) :=
  ⟨⟨by decide, by decide⟩,
    logout_removes_all_connections [("u", ["s1", "s2"]), ("v", ["t1"])] "u" "s1"
      (by decide) (by decide)⟩

/-- Claim C10: `userLogin` adds the connection to the in-memory registry
before the persisted online-status write is attempted (the `registryAdd`
effect precedes the `dbOnlineWrite` effect in every trace prefix), and
when the store write fails the handler keeps the registry association —
no roll back, only a log — so the registry reports online a user whose
persisted status update failed. -/
theorem login_registry_before_db (r : Registry) (uid sid : String) (dbOk : Bool) :
    memAny (userLoginHandler r uid sid dbOk).1 uid sid ∧
    isOnlineReg (userLoginHandler r uid sid dbOk).1 uid = true ∧
    (∀ n, PresEffect.dbOnlineWrite uid true ∈ ((userLoginHandler r uid sid dbOk).2.take n) →
       PresEffect.registryAdd uid sid ∈ ((userLoginHandler r uid sid dbOk).2.take n)) ∧
    (dbOk = false →
       (userLoginHandler r uid sid dbOk).1 = regAdd r uid sid ∧
       (userLoginHandler r uid sid dbOk).2
         = [PresEffect.registryAdd uid sid, PresEffect.dbOnlineWrite uid true]) := by
  refine ⟨regAdd_mem_self r uid sid, regAdd_isOnline r uid sid, ?_, ?_⟩
  · intro n hmem
    cases dbOk with
    | false =>
      cases n with
      | zero => simp at hmem
      | succ m => simp [userLoginHandler, List.take]
    | true =>
      cases n with
      | zero => simp at hmem
      | succ m => simp [userLoginHandler, List.take]
  · intro hdb
    subst hdb
    exact ⟨rfl, rfl⟩

/-- Witness for `login_registry_before_db`: a failed store write still
leaves the fresh association in the registry, and the registry-add effect
is in every prefix containing the write attempt. -/
theorem login_registry_before_db_witness :
    memAny (userLoginHandler [] "u" "s" false).1 "u" "s" ∧
    (userLoginHandler [] "u" "s" false).2
      = [PresEffect.registryAdd "u" "s", PresEffect.dbOnlineWrite "u" true] ∧
    PresEffect.registryAdd "u" "s" ∈ ((userLoginHandler [] "u" "s" false).2.take 2) :=
  ⟨(login_registry_before_db [] "u" "s" false).1,
   ((login_registry_before_db [] "u" "s" false).2.2.2 rfl).2,
   (login_registry_before_db [] "u" "s" false).2.2.1 2 (by decide)⟩
